import Mathlib

/-!
Verification of the podkernel install/start pipeline against its
natural-language specification.  The definitions below are a shallow
embedding of `src/podkernel/cli/main.py`, `src/podkernel/kernelspec.py`
and `src/podkernel/models.py`: pure Python functions become Lean
functions, the filesystem kernelspec store becomes an explicit
association list threaded through the install step, and subprocess
results (inspect / pull / build) become explicit environment records.
-/

namespace Podkernel

/-! ## Data model (`models.py`) -/

/-- Jupyter kernel interrupt modes (`JupyterInterruptMode` in `models.py`). -/
inductive JupyterInterruptMode where
  | Signal
  | Message
deriving DecidableEq, Repr

/-- Namespaced metadata stored in the kernelspec (`PodKernelMetadata` in
`models.py`). -/
structure PodKernelMetadata where
  image_name : String
  build : Bool
  build_args : List String := []
  run_args : List String := []
  cmd_args : List String := []
deriving DecidableEq, Repr

/-- Jupyter kernel spec (`JupyterKernelSpec` in `models.py`).  The `metadata`
field is `Dict[str, Any]` in Python; this program only ever stores a
`PodKernelMetadata` dump under the namespace key, so the embedding types the
mapping's values as `PodKernelMetadata`. -/
structure JupyterKernelSpec where
  argv : List String
  display_name : String
  language : String
  interrupt_mode : Option JupyterInterruptMode
  env : Option (List (String × String)) := none
  metadata : Option (List (String × PodKernelMetadata)) := none
deriving DecidableEq, Repr

/-! ## Kernel ID codec (`kernelspec.py`) -/

/-- Membership in `KERNELSPEC_KERNELID_ALLOWED_CHARACTERS`
(= `string.ascii_letters + string.digits + "_.-"`). -/
def isAllowedKernelIdChar (c : Char) : Bool :=
  c.isAlpha || c.isDigit || c == '_' || c == '.' || c == '-'

/-- `make_kernel_id`: map every character outside the allowed set to `_`. -/
def make_kernel_id (name : String) : String :=
  (name.toList.map (fun c => if isAllowedKernelIdChar c then c else '_')).asString

/-- `validate_kernel_id` raises `ValueError` when some character of the id is
outside the allowed set; the embedding returns `true` exactly when it does not
raise. -/
def validate_kernel_id_ok (kernel_id : String) : Bool :=
  kernel_id.toList.all isAllowedKernelIdChar

/-- Failure modes of `user_kernelspec_store`: the explicit `ValueError` for
unknown system types, and the `TypeError` Python raises when
`os.getenv("APPDATA")` returns `None` and is concatenated with a string. -/
inductive StoreFailure where
  | typeError
  | valueError (system_type : String)
deriving DecidableEq, Repr

/-- `user_kernelspec_store(system_type)`: per-user kernelspec store path by
host OS convention.  The `APPDATA` environment variable is passed explicitly
as an `Option` (Python's `os.getenv` result); `Path.expanduser` is elided,
the raw path string is returned. -/
def user_kernelspec_store (appdata : Option String) (system_type : String) :
    Except StoreFailure String :=
  if system_type == "Linux" then
    Except.ok "~/.local/share/jupyter/kernels"
  else if system_type == "Windows" then
    match appdata with
    | none => Except.error StoreFailure.typeError
    | some a => Except.ok (a ++ "\\jupyter\\kernels")
  else if system_type == "Darwin" then
    Except.ok "~/Library/Jupyter/kernels"
  else
    Except.error (StoreFailure.valueError system_type)

/-! ## SHA-256, base64url and JSON serialization

`cli_install` derives the kernel id with
`base64.urlsafe_b64encode(hashlib.sha256(kernel_meta.model_dump_json(indent=False).encode("utf8")).digest())`.
The whole chain is embedded executably over `Nat` bytes (machine words are
`Nat` reduced `% 2 ^ 32`). -/

/-- Right rotation of a 32-bit word represented as a `Nat`. -/
def rotr32 (n x : Nat) : Nat :=
  ((x >>> n) ||| (x <<< (32 - n))) % 2 ^ 32

/-- The 64 SHA-256 round constants (FIPS 180-4), written in decimal. -/
def sha256K : List Nat :=
  [1116352408, 1899447441, 3049323471, 3921009573, 961987163,
   1508970993, 2453635748, 2870763221, 3624381080, 310598401,
   607225278, 1426881987, 1925078388, 2162078206, 2614888103,
   3248222580, 3835390401, 4022224774, 264347078, 604807628,
   770255983, 1249150122, 1555081692, 1996064986, 2554220882,
   2821834349, 2952996808, 3210313671, 3336571891, 3584528711,
   113926993, 338241895, 666307205, 773529912, 1294757372,
   1396182291, 1695183700, 1986661051, 2177026350, 2456956037,
   2730485921, 2820302411, 3259730800, 3345764771, 3516065817,
   3600352804, 4094571909, 275423344, 430227734, 506948616,
   659060556, 883997877, 958139571, 1322822218, 1537002063,
   1747873779, 1955562222, 2024104815, 2227730452, 2361852424,
   2428436474, 2756734187, 3204031479, 3329325298]

/-- The eight SHA-256 initial hash words (FIPS 180-4), written in decimal. -/
def sha256H0 : List Nat :=
  [1779033703, 3144134277, 1013904242, 2773480762,
   1359893119, 2600822924, 528734635, 1541459225]

/-- SHA-256 padding: append `0x80`, zero bytes to 56 mod 64, then the message
bit length as 8 big-endian bytes. -/
def sha256Pad (msg : List Nat) : List Nat :=
  let bitLen := msg.length * 8
  let zeros := (120 - (msg.length + 1) % 64) % 64
  msg ++ [0x80] ++ List.replicate zeros 0 ++
    [(bitLen >>> 56) % 256, (bitLen >>> 48) % 256, (bitLen >>> 40) % 256, (bitLen >>> 32) % 256,
     (bitLen >>> 24) % 256, (bitLen >>> 16) % 256, (bitLen >>> 8) % 256, bitLen % 256]

/-- Split a byte list into successive 64-byte chunks. -/
def chunks64 : List Nat → List (List Nat)
  | [] => []
  | b :: rest => ((b :: rest).take 64) :: chunks64 ((b :: rest).drop 64)
termination_by l => l.length
decreasing_by simp [List.drop_drop]; omega

/-- Assemble big-endian 32-bit words from a byte list. -/
def bytesToWords : List Nat → List Nat
  | b0 :: b1 :: b2 :: b3 :: rest =>
      (b0 <<< 24 ||| b1 <<< 16 ||| b2 <<< 8 ||| b3) :: bytesToWords rest
  | _ => []

/-- Extend the 16 message-schedule words to 64, pushing `fuel` further words. -/
def sha256Extend (w : Array Nat) (fuel : Nat) : Array Nat :=
  match fuel with
  | 0 => w
  | f + 1 =>
    let i := w.size
    let w15 := w.getD (i - 15) 0
    let w2 := w.getD (i - 2) 0
    let s0 := rotr32 7 w15 ^^^ rotr32 18 w15 ^^^ (w15 >>> 3)
    let s1 := rotr32 17 w2 ^^^ rotr32 19 w2 ^^^ (w2 >>> 10)
    let next := (w.getD (i - 16) 0 + s0 + w.getD (i - 7) 0 + s1) % 2 ^ 32
    sha256Extend (w.push next) f

/-- Working state of one SHA-256 compression. -/
structure Sha256State where
  a : Nat
  b : Nat
  c : Nat
  d : Nat
  e : Nat
  f : Nat
  g : Nat
  h : Nat
deriving Repr

/-- One SHA-256 compression round for round constant `ki` and schedule word
`wi`. -/
def sha256Round (s : Sha256State) (ki wi : Nat) : Sha256State :=
  let s1 := rotr32 6 s.e ^^^ rotr32 11 s.e ^^^ rotr32 25 s.e
  let ch := (s.e &&& s.f) ^^^ ((s.e ^^^ 0xffffffff) &&& s.g)
  let temp1 := (s.h + s1 + ch + ki + wi) % 2 ^ 32
  let s0 := rotr32 2 s.a ^^^ rotr32 13 s.a ^^^ rotr32 22 s.a
  let maj := (s.a &&& s.b) ^^^ (s.a &&& s.c) ^^^ (s.b &&& s.c)
  let temp2 := (s0 + maj) % 2 ^ 32
  { a := (temp1 + temp2) % 2 ^ 32
    b := s.a
    c := s.b
    d := s.c
    e := (s.d + temp1) % 2 ^ 32
    f := s.e
    g := s.f
    h := s.g }

/-- Compress one 64-byte chunk into the running hash value. -/
def sha256Chunk (hs : List Nat) (chunk : List Nat) : List Nat :=
  let w := sha256Extend (Array.mk (bytesToWords chunk)) 48
  let init : Sha256State :=
    { a := hs.getD 0 0, b := hs.getD 1 0, c := hs.getD 2 0, d := hs.getD 3 0
      e := hs.getD 4 0, f := hs.getD 5 0, g := hs.getD 6 0, h := hs.getD 7 0 }
  let fin := (List.zip sha256K w.toList).foldl (fun s kw => sha256Round s kw.1 kw.2) init
  [(hs.getD 0 0 + fin.a) % 2 ^ 32, (hs.getD 1 0 + fin.b) % 2 ^ 32,
   (hs.getD 2 0 + fin.c) % 2 ^ 32, (hs.getD 3 0 + fin.d) % 2 ^ 32,
   (hs.getD 4 0 + fin.e) % 2 ^ 32, (hs.getD 5 0 + fin.f) % 2 ^ 32,
   (hs.getD 6 0 + fin.g) % 2 ^ 32, (hs.getD 7 0 + fin.h) % 2 ^ 32]

/-- SHA-256 digest of a byte list, as a list of 32 bytes. -/
def sha256 (msg : List Nat) : List Nat :=
  let final := (chunks64 (sha256Pad msg)).foldl sha256Chunk sha256H0
  final.flatMap (fun wd => [(wd >>> 24) % 256, (wd >>> 16) % 256, (wd >>> 8) % 256, wd % 256])

/-- The base64url alphabet used by `base64.urlsafe_b64encode`. -/
def b64urlAlphabet : List Char :=
  "ABCDEFGHIJKLMNOPQRSTUVWXYZabcdefghijklmnopqrstuvwxyz0123456789-_".toList

/-- Character of the base64url alphabet at index `n`. -/
def b64Char (n : Nat) : Char :=
  b64urlAlphabet.getD n 'A'

/-- Base64url encoding with `=` padding, as produced by
`base64.urlsafe_b64encode`. -/
def base64urlEncode : List Nat → List Char
  | [] => []
  | [b1] => [b64Char (b1 >>> 2), b64Char ((b1 &&& 3) <<< 4), '=', '=']
  | [b1, b2] =>
      [b64Char (b1 >>> 2), b64Char (((b1 &&& 3) <<< 4) ||| (b2 >>> 4)),
       b64Char ((b2 &&& 15) <<< 2), '=']
  | b1 :: b2 :: b3 :: rest =>
      [b64Char (b1 >>> 2), b64Char (((b1 &&& 3) <<< 4) ||| (b2 >>> 4)),
       b64Char (((b2 &&& 15) <<< 2) ||| (b3 >>> 6)), b64Char (b3 &&& 63)] ++
        base64urlEncode rest

/-- Python's `str.rstrip('=')`: drop trailing `=` characters. -/
def rstripEq (s : String) : String :=
  ((s.toList.reverse.dropWhile (fun c => c == '=')).reverse).asString

/-- Python's `str.lstrip('~/')`: drop leading characters belonging to the set
of `~` and `/`. -/
def lstripTildeSlash (s : String) : String :=
  (s.toList.dropWhile (fun c => c == '~' || c == '/')).asString

/-- UTF-8 encoding of one character, as `str.encode("utf8")` produces. -/
def utf8Bytes (c : Char) : List Nat :=
  let n := c.toNat
  if n < 0x80 then [n]
  else if n < 0x800 then [0xC0 ||| (n >>> 6), 0x80 ||| (n &&& 0x3F)]
  else if n < 0x10000 then
    [0xE0 ||| (n >>> 12), 0x80 ||| ((n >>> 6) &&& 0x3F), 0x80 ||| (n &&& 0x3F)]
  else
    [0xF0 ||| (n >>> 18), 0x80 ||| ((n >>> 12) &&& 0x3F), 0x80 ||| ((n >>> 6) &&& 0x3F),
     0x80 ||| (n &&& 0x3F)]

/-- UTF-8 encoding of a string as a byte list. -/
def strToBytes (s : String) : List Nat :=
  s.toList.flatMap utf8Bytes

/-- JSON escaping of one character inside a string literal. -/
def jsonEscapeChar (c : Char) : List Char :=
  if c == '"' then ['\\', '"']
  else if c == '\\' then ['\\', '\\']
  else if c.toNat < 0x20 then
    let hexDigit := fun (n : Nat) => "0123456789abcdef".toList.getD n '0'
    ['\\', 'u', '0', '0', hexDigit (c.toNat / 16), hexDigit (c.toNat % 16)]
  else [c]

/-- JSON string literal for `s`. -/
def jsonStr (s : String) : String :=
  "\"" ++ (s.toList.flatMap jsonEscapeChar).asString ++ "\""

/-- JSON array literal holding string literals. -/
def jsonStrList (l : List String) : String :=
  "[" ++ String.intercalate "," (l.map jsonStr) ++ "]"

/-- Canonical JSON serialization of `PodKernelMetadata`
(`kernel_meta.model_dump_json(indent=False)`): compact JSON with keys in
field-declaration order, as pydantic dumps the model. -/
def model_dump_json (m : PodKernelMetadata) : String :=
  "\x7b\"image_name\":" ++ jsonStr m.image_name ++
    ",\"build\":" ++ (if m.build then "true" else "false") ++
    ",\"build_args\":" ++ jsonStrList m.build_args ++
    ",\"run_args\":" ++ jsonStrList m.run_args ++
    ",\"cmd_args\":" ++ jsonStrList m.cmd_args ++ "\x7d"

/-- Kernel-id derivation performed by `cli_install`:
`hashtag = urlsafe_b64encode(sha256(model_dump_json(meta)).digest())` and
`kernel_id = make_kernel_id(image_name.lstrip('~/') + "-" + hashtag.rstrip('='))`. -/
def deriveKernelId (meta : PodKernelMetadata) : String :=
  let hashtag := (base64urlEncode (sha256 (strToBytes (model_dump_json meta)))).asString
  make_kernel_id (lstripTildeSlash meta.image_name ++ "-" ++ rstripEq hashtag)

/-! ## Argument partitioner (`cli_install`, the `for argument in arguments`
loop)

The Python loop keeps a queue `arg_order` of not-yet-current sections, a
current section list, and appends each non-separator token to the current
section.  A `--` token pops the next section when one remains; otherwise it
logs a warning and — having no `continue` — falls through to the append. -/

/-- Loop state of the partitioning loop: the finished sections in order, the
section currently being filled, and how many sections remain in `arg_order`. -/
structure PartState where
  done : List (List String)
  cur : List String
  remaining : Nat
deriving DecidableEq, Repr

/-- One iteration of the partitioning loop on token `tok`. -/
def partStep (st : PartState) (tok : String) : PartState :=
  if tok == "--" then
    if 0 < st.remaining then
      { done := st.done ++ [st.cur], cur := [], remaining := st.remaining - 1 }
    else
      { st with cur := st.cur ++ [tok] }
  else
    { st with cur := st.cur ++ [tok] }

/-- The partitioning loop over the whole token list. -/
def partRun (st : PartState) : List String → PartState
  | [] => st
  | tok :: rest => partRun (partStep st tok) rest

/-- Partition the flat `arguments` list into
`(build_args, run_args, cmd_args)`.  With `build` there are three sections
(`build_args` first); otherwise two (`run_args` first) and `build_args` stays
empty.  Sections never reached by a `--` remain empty. -/
def partitionArgs (build : Bool) (arguments : List String) :
    List String × List String × List String :=
  let init : PartState := { done := [], cur := [], remaining := if build then 2 else 1 }
  let fin := partRun init arguments
  let sections := fin.done ++ [fin.cur] ++ List.replicate fin.remaining []
  if build then (sections.getD 0 [], sections.getD 1 [], sections.getD 2 [])
  else ([], sections.getD 0 [], sections.getD 1 [])

/-- The section the loop filled first: the head of the finished sections, or
the current section when no separator was ever consumed. -/
def firstSection (st : PartState) : List String :=
  st.done.headD st.cur

/-! ## Argument-list validation (`cli_install`, lines 184–215) -/

/-- Python's `s.startswith(pre)`: character-list prefix test. -/
def pyStartsWith (s pre : String) : Bool :=
  pre.toList.isPrefixOf s.toList

/-- Python's `s.endswith(suf)`: character-list suffix test. -/
def pyEndsWith (s suf : String) : Bool :=
  suf.toList.isSuffixOf s.toList

/-- The `disallowed_run_args` set from `cli_install`. -/
def disallowed_run_args : List String :=
  ["--rm", "-d", "--detach", "-i", "--interactive", "-t", "--tty", "-a", "--attach"]

/-- Whether one `run_args` token is rejected: the loop first tests
`value.startswith("--rm")`, then membership in `disallowed_run_args`. -/
def runArgDisallowed (value : String) : Bool :=
  pyStartsWith value "--rm" || disallowed_run_args.contains value

/-- All rejected `run_args` tokens, in order; one error is logged for each, so
this is also the list of logged run-args violations. -/
def runArgErrors (run_args : List String) : List String :=
  run_args.filter runArgDisallowed

/-- Whether the `build_args` check fires: some token starts with `--iidfile`. -/
def buildArgsError (build_args : List String) : Bool :=
  build_args.any (fun value => pyStartsWith value "--iidfile")

/-- The accumulated `arg_list_has_errors` flag after both validation loops;
`cli_install` raises its single `ClickException` exactly when it is set. -/
def argListHasErrors (build_args run_args : List String) : Bool :=
  buildArgsError build_args || !(runArgErrors run_args).isEmpty

/-! ## Install (`cli_install`, persistence part) -/

/-- The reserved metadata namespace key (`NAMESPACE` in `main.py`). -/
def NAMESPACE : String := "podkernel"

/-- The connection-file placeholder stored in `argv`
(`JUPYTER_CONNECTION_FILE_TEMPLATE`). -/
def JUPYTER_CONNECTION_FILE_TEMPLATE : String := "\x7bconnection_file\x7d"

/-- Python's `Path(p).name`: the final path component. -/
def pathBasename (p : String) : String :=
  ((p.splitOn "/").filter (fun s => !s.isEmpty)).getLastD ""

/-- Display-name resolution in `cli_install`: keep an explicit
`--display-name`; otherwise derive `f"{name} ({language})"` where `name` is
the image name, or its basename for build kernels. -/
def resolveDisplayName (display_name : Option String) (build : Bool)
    (image_name language : String) : String :=
  match display_name with
  | some d => d
  | none =>
      let name := if !build then image_name else pathBasename image_name
      name ++ " (" ++ language ++ ")"

/-- The kernelspec `cli_install` writes for a fresh kernel id. -/
def installedSpec (kernel_id : String) (kernel_meta : PodKernelMetadata)
    (display_name language : String) : JupyterKernelSpec :=
  { argv := [NAMESPACE, "start", kernel_id, JUPYTER_CONNECTION_FILE_TEMPLATE]
    display_name := display_name
    language := language
    interrupt_mode := some JupyterInterruptMode.Message
    env := none
    metadata := some [(NAMESPACE, kernel_meta)] }

/-- The kernelspec store: one entry per kernel directory that contains a
`kernel.json`, keyed by kernel id.  Specs are stored structurally; the
pydantic JSON round-trip `model_validate_json ∘ model_dump_json` is the
identity on the specs this program writes. -/
abbrev KernelStore := List (String × JupyterKernelSpec)

/-- Outcome of one `cli_install` invocation: the aborting `ClickException`
when validation fails, the uncaught `ValueError` of `validate_kernel_id`, the
`sys.exit(0)` short-circuit logging the existing spec's display name and
language, or a fresh install. -/
inductive InstallOutcome where
  | validation_failed
  | invalid_id
  | existing (kernel_id display_name language : String)
  | installed (kernel_id : String) (spec : JupyterKernelSpec)
deriving DecidableEq, Repr

/-- Whether the invocation exits with status 0. -/
def InstallOutcome.isSuccess : InstallOutcome → Bool
  | .validation_failed => false
  | .invalid_id => false
  | .existing _ _ _ => true
  | .installed _ _ => true

/-- The `PodKernelMetadata` record `cli_install` assembles from its inputs:
the (possibly build-path-normalized) image name and the partitioned argument
sections.  `fs_resolve` stands for the build-path normalization
(`Path(image_name).absolute().resolve()` plus home-relativization), a
filesystem-environment function applied only when `build` is set. -/
def installMeta (fs_resolve : String → String) (build : Bool) (image_name_arg : String)
    (arguments : List String) : PodKernelMetadata :=
  let image_name := if build then fs_resolve image_name_arg else image_name_arg
  let parts := partitionArgs build arguments
  { image_name := image_name, build := build, build_args := parts.1
    run_args := parts.2.1, cmd_args := parts.2.2 }

/-- The `cli_install` command as a transformer of the kernelspec store:
normalize the image name and partition the arguments (`installMeta`), resolve
the display name, validate the argument lists (single aborting
`ClickException` when any violation was recorded), derive and validate the
kernel id, then either short-circuit on an existing spec file (logging its
display name, exit 0) or write the new spec. -/
def cli_install (fs_resolve : String → String) (store : KernelStore)
    (display_name_opt : Option String) (build : Bool)
    (language image_name_arg : String) (arguments : List String) :
    KernelStore × InstallOutcome :=
  let kernel_meta := installMeta fs_resolve build image_name_arg arguments
  let display_name := resolveDisplayName display_name_opt build kernel_meta.image_name language
  if argListHasErrors kernel_meta.build_args kernel_meta.run_args then
    (store, InstallOutcome.validation_failed)
  else
    let kernel_id := deriveKernelId kernel_meta
    if !validate_kernel_id_ok kernel_id then
      (store, InstallOutcome.invalid_id)
    else
      match List.lookup kernel_id store with
      | some existing_spec =>
          (store, InstallOutcome.existing kernel_id existing_spec.display_name
            existing_spec.language)
      | none =>
          let spec := installedSpec kernel_id kernel_meta display_name language
          (store ++ [(kernel_id, spec)], InstallOutcome.installed kernel_id spec)

/-- Number of store entries under kernel id `k` (kernelspec directories named
`k`). -/
def countKey (store : KernelStore) (k : String) : Nat :=
  (store.filter (fun kv => kv.1 == k)).length

/-! ## Container resolver (`_inspect_image`, `_common_build`, `cli_start`) -/

/-- One element of the JSON array printed by `podman inspect`; only the `Id`
field is read. -/
structure InspectEntry where
  Id : String
deriving DecidableEq, Repr

/-- Result of one inspect subprocess: its exit code and its parsed JSON-array
output.  `_inspect_image` catches `CalledProcessError` and parses `e.output`,
so the output is available whatever the exit code. -/
structure InspectOutcome where
  returncode : Int
  output : List InspectEntry
deriving DecidableEq, Repr

/-- `_inspect_image`: parse the inspect output (tolerating a non-zero exit);
`None` for an empty array, else the first element's `Id`. -/
def inspect_image (outcome : InspectOutcome) : Option String :=
  match outcome.output with
  | [] => none
  | entry :: _ => some entry.Id

/-- The external-world behavior a `_common_build` call can observe: whether
`podman build` succeeds, the image id the build writes to the `--iidfile`
temporary, the first inspect result, and the inspect result after a pull. -/
structure RuntimeEnv where
  build_succeeds : Bool
  iidfile_line : String
  inspect_initial : InspectOutcome
  inspect_after_pull : InspectOutcome
deriving DecidableEq, Repr

/-- Result of `_common_build`: `fatal` when `subprocess.check_call` on the
build raises (the exception propagates), otherwise the returned
`Optional[str]` image id together with whether a pull was attempted. -/
inductive BuildResult where
  | fatal
  | done (image_id : Option String) (pull_attempted : Bool)
deriving DecidableEq, Repr

/-- `_common_build(log, kernel_id, container_exe, kernel_meta, pull=False)`:
build kernels run `podman build` and read the id file; non-build kernels
inspect, and — only when `pull` is set — pull on a miss (pull errors are
non-fatal) and re-inspect. -/
def common_build (meta : PodKernelMetadata) (env : RuntimeEnv) (pull : Bool) :
    BuildResult :=
  if meta.build then
    if env.build_succeeds then BuildResult.done (some env.iidfile_line) false
    else BuildResult.fatal
  else
    match inspect_image env.inspect_initial with
    | some image_id => BuildResult.done (some image_id) false
    | none =>
        if pull then BuildResult.done (inspect_image env.inspect_after_pull) true
        else BuildResult.done none false

/-- The default of the `pull` keyword parameter of `_common_build`. -/
def common_build_pull_default : Bool := false

/-- The image resolution `cli_start` performs:
`_common_build(log, kernel_id, container_exe, kernel_meta)` — the `pull`
argument is not passed, so the default applies. -/
def cli_start_image_resolution (meta : PodKernelMetadata) (env : RuntimeEnv) :
    BuildResult :=
  common_build meta env common_build_pull_default

/-! ## Connection rewriter (`cli_start`, lines 359–365) -/

/-- JSON values as they occur in connection files. -/
inductive JVal where
  | jnull
  | jbool (b : Bool)
  | jnum (n : Int)
  | jstr (s : String)
deriving DecidableEq, Repr

/-- A parsed JSON object in key order. -/
abbrev Jobj := List (String × JVal)

/-- Python's `pat in s` substring test. -/
def strContains (s pat : String) : Bool :=
  decide (pat.toList <:+: s.toList)

/-- Python's `obj[k] = v` on a dict: overwrite the value in place when the key
exists, else insert at the end. -/
def objSet (o : Jobj) (k : String) (v : JVal) : Jobj :=
  if o.any (fun kv => kv.1 == k) then
    o.map (fun kv => if kv.1 == k then (k, v) else kv)
  else
    o ++ [(k, v)]

/-- Value under key `k`, when present. -/
def objGet (o : Jobj) (k : String) : Option JVal :=
  (o.find? (fun kv => kv.1 == k)).map (fun kv => kv.2)

/-- The connection-file rewrite in `cli_start`: force `ip` to `"0.0.0.0"`,
collect the values of every key containing `"_port"` into a set, and write
the mutated object back (returned here as the first component). -/
def rewriteConnection (o : Jobj) : Jobj × Finset JVal :=
  let o2 := objSet o "ip" (JVal.jstr "0.0.0.0")
  (o2, ((o2.filter (fun kv => strContains kv.1 "_port")).map (fun kv => kv.2)).toFinset)

/-- The `run_cmd` list assembled by `cli_start`:
`[container_exe, "run"] + run_args + control_args + [image_id] + cmd_args`. -/
def composeRunCmd (container_exe : String) (run_args control_args : List String)
    (image_id : String) (cmd_args : List String) : List String :=
  [container_exe, "run"] ++ run_args ++ control_args ++ [image_id] ++ cmd_args

/-! ## Theorems -/

/-- C1 — code_bug evidence.  The spec says `cli_start` resolves the image
with `pull_on_miss=true`: absent image ⇒ pull (non-fatal) ⇒ re-inspect ⇒
only then `ImageNotFound`.  In the code, `cli_start` calls `_common_build`
without the `pull` argument, whose default is `False`, so for a non-build
kernel whose image is absent on the first inspect no pull is ever attempted
and the start fails immediately — even in an environment where the image
would be present after a pull (second conjunct shows `_common_build` with
`pull=True` would succeed there). -/
theorem C1_start_never_pulls :
    cli_start_image_resolution
        { image_name := "python:3.11", build := false }
        { build_succeeds := true, iidfile_line := ""
          inspect_initial := { returncode := 1, output := [] }
          inspect_after_pull := { returncode := 0, output := [{ Id := "sha256:abc" }] } }
      = BuildResult.done none false
    ∧ common_build
        { image_name := "python:3.11", build := false }
        { build_succeeds := true, iidfile_line := ""
          inspect_initial := { returncode := 1, output := [] }
          inspect_after_pull := { returncode := 0, output := [{ Id := "sha256:abc" }] } }
        true
      = BuildResult.done (some "sha256:abc") true
    ∧ common_build_pull_default = false := by
  exact ⟨rfl, rfl, rfl⟩

/-- C3: kernel-id derivation is deterministic — equal `PodKernelConfig`
records yield byte-for-byte equal id strings — and the id is the sanitized
image reference (leading `~`/`/` stripped) concatenated with `-` and the
base64url-encoded SHA-256 digest of the canonical serialization with `=`
padding stripped. -/
theorem C3_kernel_id_deterministic (c₁ c₂ : PodKernelMetadata) (h : c₁ = c₂) :
    deriveKernelId c₁ = deriveKernelId c₂
    ∧ deriveKernelId c₁ = make_kernel_id (lstripTildeSlash c₁.image_name ++ "-" ++
        rstripEq ((base64urlEncode (sha256 (strToBytes (model_dump_json c₁)))).asString)) := by
  subst h
  exact ⟨rfl, rfl⟩

/-- C3 witness at a concrete configuration. -/
theorem C3_kernel_id_deterministic_witness :
    deriveKernelId { image_name := "python:3.11", build := false }
      = deriveKernelId { image_name := "python:3.11", build := false }
    ∧ deriveKernelId { image_name := "python:3.11", build := false }
      = make_kernel_id (lstripTildeSlash "python:3.11" ++ "-" ++
          rstripEq ((base64urlEncode (sha256 (strToBytes
            (model_dump_json { image_name := "python:3.11", build := false })))).asString)) :=
  C3_kernel_id_deterministic
    { image_name := "python:3.11", build := false }
    { image_name := "python:3.11", build := false } rfl

/-- C7: `_inspect_image` tolerates a failing inspect subprocess — the parsed
result depends only on the output, not on the exit code — an empty JSON array
means the image is absent, and otherwise the first element's `Id` is
returned; in particular `[]` yields absent even with exit code 1, and
`[⟨"sha256:abc"⟩]` yields `"sha256:abc"`. -/
theorem C7_inspect_tolerates_failure :
    (∀ (rc₁ rc₂ : Int) (out : List InspectEntry),
        inspect_image { returncode := rc₁, output := out }
          = inspect_image { returncode := rc₂, output := out })
    ∧ (∀ rc : Int, inspect_image { returncode := rc, output := [] } = none)
    ∧ (∀ (rc : Int) (entry : InspectEntry) (rest : List InspectEntry),
        inspect_image { returncode := rc, output := entry :: rest } = some entry.Id)
    ∧ inspect_image { returncode := 1, output := [] } = none
    ∧ inspect_image { returncode := 0, output := [{ Id := "sha256:abc" }] }
        = some "sha256:abc" := by
  refine ⟨fun rc₁ rc₂ out => ?_, fun rc => rfl, fun rc entry rest => rfl, rfl, rfl⟩
  cases out <;> rfl

/-- C10: resolving the kernelspec store root for system type `"Windows"` with
`APPDATA` unset hits the `TypeError` of `None + str` rather than the
documented `ValueError`, which is raised only for system types other than
Linux, Windows and Darwin. -/
theorem C10_windows_appdata_type_error :
    user_kernelspec_store none "Windows" = Except.error StoreFailure.typeError
    ∧ (∀ (appdata : Option String) (system_type : String),
        system_type ∈ (["Linux", "Windows", "Darwin"] : List String) →
        ∀ m, user_kernelspec_store appdata system_type
          ≠ Except.error (StoreFailure.valueError m))
    ∧ (∀ appdata : Option String,
        user_kernelspec_store appdata "Plan9"
          = Except.error (StoreFailure.valueError "Plan9")) := by
  refine ⟨rfl, ?_, fun appdata => rfl⟩
  intro appdata system_type hmem m
  simp only [List.mem_cons, List.not_mem_nil, or_false] at hmem
  rcases hmem with rfl | rfl | rfl
  · simp [user_kernelspec_store]
  · cases appdata <;> simp [user_kernelspec_store]
  · simp [user_kernelspec_store]

/-- C10 witness: the hypotheses discharged at `system_type = "Windows"`,
`appdata = none`, `m = "Windows"`. -/
theorem C10_windows_appdata_type_error_witness :
    user_kernelspec_store none "Windows"
      ≠ Except.error (StoreFailure.valueError "Windows") :=
  C10_windows_appdata_type_error.2.1 none "Windows" (by simp) "Windows"

/-- A non-separator token is appended to the current section. -/
theorem partStep_ne_sep (st : PartState) (tok : String) (h : (tok == "--") = false) :
    partStep st tok = { st with cur := st.cur ++ [tok] } := by
  simp [partStep, h]

/-- Without any separator token, the whole input is appended to the current
section and nothing else changes. -/
theorem partRun_no_sep (args : List String) : ∀ st : PartState, "--" ∉ args →
    partRun st args = { st with cur := st.cur ++ args } := by
  induction args with
  | nil => intro st _; simp [partRun]
  | cons a rest ih =>
      intro st h
      simp only [List.mem_cons, not_or] at h
      have ha : (a == "--") = false := beq_eq_false_iff_ne.mpr (Ne.symm h.1)
      rw [partRun, partStep_ne_sep st a ha, ih _ h.2]
      simp

/-- Once a section has been finished, the first finished section never
changes, and the finished list stays nonempty. -/
theorem partRun_done_head (args : List String) : ∀ st : PartState, st.done ≠ [] →
    (partRun st args).done.headD [] = st.done.headD [] ∧ (partRun st args).done ≠ [] := by
  induction args with
  | nil => intro st h; exact ⟨rfl, h⟩
  | cons a rest ih =>
      intro st h
      have key : (partStep st a).done.headD [] = st.done.headD []
          ∧ (partStep st a).done ≠ [] := by
        unfold partStep
        split
        · split
          · cases hd : st.done with
            | nil => exact absurd hd h
            | cons x xs => simp [hd]
          · exact ⟨rfl, h⟩
        · exact ⟨rfl, h⟩
      have tail := ih (partStep st a) key.2
      exact ⟨tail.1.trans key.1, tail.2⟩

/-- Starting with no finished section and at least one pending section, the
first section collected by the loop is the current prefix plus the tokens up
to the first separator. -/
theorem partRun_first_section (args : List String) : ∀ (cur : List String) (r : Nat),
    firstSection (partRun { done := [], cur := cur, remaining := r + 1 } args)
      = cur ++ args.takeWhile (fun t => !(t == "--")) := by
  induction args with
  | nil => intro cur r; simp [partRun, firstSection]
  | cons a rest ih =>
      intro cur r
      by_cases ha : (a == "--") = true
      · have haeq : a = "--" := beq_iff_eq.mp ha
        subst haeq
        rw [partRun]
        have hstep : partStep { done := [], cur := cur, remaining := r + 1 } "--"
            = { done := [cur], cur := [], remaining := r } := by
          simp [partStep]
        rw [hstep]
        obtain ⟨h1, h2⟩ :=
          partRun_done_head rest { done := [cur], cur := [], remaining := r } (by simp)
        cases hd : (partRun { done := [cur], cur := [], remaining := r } rest).done with
        | nil => exact absurd hd h2
        | cons x xs =>
            rw [hd] at h1
            simp only [List.headD] at h1
            simp [firstSection, hd, h1, List.takeWhile]
      · have ha' : (a == "--") = false := by
          cases hab : (a == "--") with
          | false => rfl
          | true => exact absurd hab ha
        rw [partRun, partStep_ne_sep _ _ ha']
        simp only []
        rw [ih (cur ++ [a]) r]
        simp [List.takeWhile, ha']

/-- The first entry of the assembled section list is the loop's first
section. -/
theorem sections_getD_zero (st : PartState) :
    (st.done ++ [st.cur] ++ List.replicate st.remaining []).getD 0 [] = firstSection st := by
  cases h : st.done <;> simp [firstSection, h]

/-- C4: tokens before the first `--` form the first section (`build_args`
when building, else `run_args`), the concrete two-section example splits as
specified, and without any `--` token every token lands in the first section
while the later sections stay empty. -/
theorem C4_argument_partition :
    partitionArgs false ["a", "b", "--", "c", "d"] = ([], ["a", "b"], ["c", "d"])
    ∧ (∀ args : List String, "--" ∉ args →
        partitionArgs false args = ([], args, [])
        ∧ partitionArgs true args = (args, [], []))
    ∧ (∀ args : List String,
        (partitionArgs false args).2.1 = args.takeWhile (fun t => !(t == "--"))
        ∧ (partitionArgs true args).1 = args.takeWhile (fun t => !(t == "--"))) := by
  refine ⟨by decide, fun args h => ?_, fun args => ?_⟩
  · constructor
    · simp [partitionArgs, partRun_no_sep args _ h]
    · simp [partitionArgs, partRun_no_sep args _ h]
  · constructor
    · show (partitionArgs false args).2.1 = _
      simp only [partitionArgs, Bool.false_eq_true, if_false, reduceIte]
      rw [sections_getD_zero, partRun_first_section args [] 0]
      simp
    · show (partitionArgs true args).1 = _
      simp only [partitionArgs, reduceIte]
      rw [sections_getD_zero, partRun_first_section args [] 1]
      simp

/-- C4 witness: the no-separator case at a concrete token list. -/
theorem C4_argument_partition_witness :
    partitionArgs false ["x", "y"] = ([], ["x", "y"], [])
    ∧ partitionArgs true ["x", "y"] = (["x", "y"], [], []) :=
  C4_argument_partition.2.1 ["x", "y"] (by decide)

/-- C8: a `--` separator arriving after the last section has been reached is
appended verbatim to the current (final) section; on
`["a", "--", "b", "--", "c"]` without build the persisted `cmd_args` is
`["b", "--", "c"]`, and every `cmd_args` token — the extra `--` included —
reappears in the `run_cmd` list handed to the container runtime. -/
theorem C8_extra_separator_kept :
    (∀ st : PartState, st.remaining = 0 →
        partStep st "--" = { done := st.done, cur := st.cur ++ ["--"], remaining := st.remaining })
    ∧ partitionArgs false ["a", "--", "b", "--", "c"] = ([], ["a"], ["b", "--", "c"])
    ∧ (∀ (exe : String) (run_args control_args : List String) (image_id : String)
        (cmd_args : List String) (tok : String), tok ∈ cmd_args →
        tok ∈ composeRunCmd exe run_args control_args image_id cmd_args) := by
  refine ⟨fun st h => ?_, by decide, fun exe ra ca iid cmd tok htok => ?_⟩
  · simp [partStep, h]
  · simp [composeRunCmd, htok]

/-- C8 witness: the hypotheses discharged concretely. -/
theorem C8_extra_separator_kept_witness :
    partStep { done := [], cur := [], remaining := 0 } "--"
      = { done := [], cur := ["--"], remaining := 0 }
    ∧ "--" ∈ composeRunCmd "podman" [] [] "sha256:abc" ["b", "--", "c"] :=
  ⟨C8_extra_separator_kept.1 { done := [], cur := [], remaining := 0 } rfl,
   C8_extra_separator_kept.2.2 "podman" [] [] "sha256:abc" ["b", "--", "c"] "--" (by decide)⟩

/-- A filter result is nonempty exactly when some element satisfies the
predicate. -/
theorem filter_ne_nil_iff {α : Type} (p : α → Bool) (l : List α) :
    ¬(l.filter p = []) ↔ ∃ v ∈ l, p v = true := by
  induction l with
  | nil => simp
  | cons a rest ih => by_cases hp : p a <;> simp [List.filter_cons, hp, ih]

/-- C5: with no build-args violation, validation raises its single abort
exactly when some `run_args` token is in the disallowed set or starts with
`--rm`; `["--rmfoo"]` fails, `["--env=FOO"]` passes, and every violating
token — not just the first — appears among the logged violations. -/
theorem C5_run_arg_validation :
    (∀ run_args : List String,
        argListHasErrors [] run_args = true ↔
          ∃ v ∈ run_args, v ∈ disallowed_run_args ∨ pyStartsWith v "--rm" = true)
    ∧ argListHasErrors [] ["--rmfoo"] = true
    ∧ argListHasErrors [] ["--env=FOO"] = false
    ∧ (∀ (run_args : List String) (v : String), v ∈ run_args →
        runArgDisallowed v = true → v ∈ runArgErrors run_args) := by
  refine ⟨fun run_args => ?_, by decide, by decide, fun run_args v hv hd => ?_⟩
  · rw [argListHasErrors]
    simp only [buildArgsError, List.any_nil, Bool.false_or, Bool.not_eq_true',
      List.isEmpty_eq_false_iff_exists_mem]
    constructor
    · rintro ⟨v, hv⟩
      rw [runArgErrors, List.mem_filter, runArgDisallowed, Bool.or_eq_true] at hv
      exact ⟨v, hv.1, hv.2.symm.imp (fun h => List.elem_iff.mp h) id⟩
    · rintro ⟨v, hv, hcase⟩
      refine ⟨v, ?_⟩
      rw [runArgErrors, List.mem_filter, runArgDisallowed, Bool.or_eq_true]
      exact ⟨hv, hcase.symm.imp id (fun h => List.elem_iff.mpr h)⟩
  · rw [runArgErrors, List.mem_filter]
    exact ⟨hv, hd⟩

/-- C5 witness: both violations in `["--rm", "-d"]` are collected. -/
theorem C5_run_arg_validation_witness :
    "--rm" ∈ runArgErrors ["--rm", "-d"] ∧ "-d" ∈ runArgErrors ["--rm", "-d"] :=
  ⟨C5_run_arg_validation.2.2.2 ["--rm", "-d"] "--rm" (by decide) (by decide),
   C5_run_arg_validation.2.2.2 ["--rm", "-d"] "-d" (by decide) (by decide)⟩

/-- Key test after the overwrite map: overwriting value(s) under `k` does not
change which entries match key `k`. -/
theorem key_test_map_set (k : String) (v : JVal) (kv : String × JVal) :
    (((fun kv => if kv.1 == k then (k, v) else kv) kv).1 == k) = (kv.1 == k) := by
  by_cases h : (kv.1 == k) = true <;> simp [h]

/-- The overwrite function of `objSet` is idempotent elementwise. -/
theorem map_set_idem (k : String) (v : JVal) (kv : String × JVal) :
    (fun kv => if kv.1 == k then (k, v) else kv)
        ((fun kv => if kv.1 == k then (k, v) else kv) kv)
      = (fun kv => if kv.1 == k then (k, v) else kv) kv := by
  by_cases h : (kv.1 == k) = true <;> simp [h]

/-- After `objSet o k v` the key `k` is present. -/
theorem objSet_key_present (o : Jobj) (k : String) (v : JVal) :
    (objSet o k v).any (fun kv => kv.1 == k) = true := by
  rw [objSet]
  split
  · rename_i h
    rw [List.any_map]
    refine (List.any_eq_true).mpr ?_
    obtain ⟨kv, hkv, hk⟩ := List.any_eq_true.mp h
    exact ⟨kv, hkv, by rw [Function.comp_apply, key_test_map_set]; exact hk⟩
  · simp

/-- Setting the same key to the same value twice equals setting it once. -/
theorem objSet_idem (o : Jobj) (k : String) (v : JVal) :
    objSet (objSet o k v) k v = objSet o k v := by
  have hpresent := objSet_key_present o k v
  rw [objSet, if_pos hpresent, objSet]
  split
  · rw [List.map_map]
    exact List.map_congr_left (fun kv _ => map_set_idem k v kv)
  · rename_i h
    rw [List.map_append]
    have h1 : o.map (fun kv => if kv.1 == k then (k, v) else kv) = o := by
      conv_rhs => rw [← List.map_id o]
      refine List.map_congr_left (fun kv hkv => ?_)
      have : (kv.1 == k) = false := by
        rcases hb : (kv.1 == k) with _ | _
        · rfl
        · exact absurd (List.any_eq_true.mpr ⟨kv, hkv, hb⟩) h
      simp [this]
    have h2 : [((k : String), v)].map (fun kv => if kv.1 == k then (k, v) else kv)
        = [(k, v)] := by simp
    rw [h1, h2]

/-- A `find?` over a list where no element satisfies the predicate skips
it. -/
theorem find_append_of_none {α : Type} (p : α → Bool) (l₁ l₂ : List α)
    (h : l₁.find? p = none) : (l₁ ++ l₂).find? p = l₂.find? p := by
  induction l₁ with
  | nil => rfl
  | cons a rest ih =>
      rw [List.find?] at h
      rw [List.cons_append, List.find?]
      cases hp : p a with
      | false =>
          rw [hp] at h
          exact ih h
      | true => rw [hp] at h; cases h

/-- Looking up the key just set yields the value just set. -/
theorem objGet_objSet_self (o : Jobj) (k : String) (v : JVal) :
    objGet (objSet o k v) k = some v := by
  rw [objGet, objSet]
  split
  · rename_i h
    obtain ⟨kv, hkv, hk⟩ := List.any_eq_true.mp h
    clear h
    induction o with
    | nil => cases hkv
    | cons a rest ih =>
        rw [List.map_cons, List.find?]
        by_cases ha : (a.1 == k) = true
        · rw [if_pos ha]
          simp
        · rw [if_neg ha]
          have ha' : (a.1 == k) = false := Bool.eq_false_iff.mpr ha
          rw [ha']
          rcases List.mem_cons.mp hkv with rfl | hmem
          · exact absurd hk ha
          · exact ih hmem
  · rename_i h
    have hnone : o.find? (fun kv => kv.1 == k) = none := by
      rw [List.find?_eq_none]
      intro x hx
      intro hpx
      exact h (List.any_eq_true.mpr ⟨x, hx, hpx⟩)
    rw [find_append_of_none _ _ _ hnone]
    simp

/-- C6: the connection-file rewrite forces `ip` to `"0.0.0.0"` on every
object, on the documented example it yields `ip = "0.0.0.0"` with port set
`{5555, 5556}`, and applying the rewrite to its own output reproduces the
same object and the same port set. -/
theorem C6_connection_rewrite :
    rewriteConnection
        [("ip", JVal.jstr "127.0.0.1"), ("shell_port", JVal.jnum 5555),
         ("iopub_port", JVal.jnum 5556)]
      = ([("ip", JVal.jstr "0.0.0.0"), ("shell_port", JVal.jnum 5555),
          ("iopub_port", JVal.jnum 5556)],
         {JVal.jnum 5555, JVal.jnum 5556})
    ∧ (∀ o : Jobj, objGet (rewriteConnection o).1 "ip" = some (JVal.jstr "0.0.0.0"))
    ∧ (∀ o : Jobj, rewriteConnection (rewriteConnection o).1 = rewriteConnection o) := by
  refine ⟨by decide, fun o => objGet_objSet_self o "ip" (JVal.jstr "0.0.0.0"), fun o => ?_⟩
  show rewriteConnection (objSet o "ip" (JVal.jstr "0.0.0.0")) = _
  rw [rewriteConnection, rewriteConnection, objSet_idem]

/-- C9: port keys are selected by substring — `"x_porty"` contains `"_port"`
without ending in it and its value lands in the returned port set — and in
general a value belongs to the returned set exactly when some key of the
mutated object containing the substring `"_port"` maps to it. -/
theorem C9_port_keys_by_substring :
    strContains "x_porty" "_port" = true
    ∧ pyEndsWith "x_porty" "_port" = false
    ∧ (rewriteConnection
          [("ip", JVal.jstr "127.0.0.1"), ("x_porty", JVal.jnum 7),
           ("shell_port", JVal.jnum 5)]).2
        = {JVal.jnum 7, JVal.jnum 5}
    ∧ (∀ (o : Jobj) (v : JVal),
        v ∈ (rewriteConnection o).2 ↔
          ∃ k, (k, v) ∈ objSet o "ip" (JVal.jstr "0.0.0.0")
            ∧ strContains k "_port" = true) := by
  refine ⟨by decide, by decide, by decide, fun o v => ?_⟩
  rw [rewriteConnection]
  simp only [List.mem_toFinset, List.mem_map, List.mem_filter]
  constructor
  · rintro ⟨⟨k, w⟩, ⟨hmem, hc⟩, rfl⟩
    exact ⟨k, hmem, hc⟩
  · rintro ⟨k, hmem, hc⟩
    exact ⟨(k, v), ⟨hmem, hc⟩, rfl⟩

/-- Sanitized names always validate: `make_kernel_id` only emits allowed
characters. -/
theorem validate_make_kernel_id (s : String) :
    validate_kernel_id_ok (make_kernel_id s) = true := by
  rw [validate_kernel_id_ok, make_kernel_id]
  have hlist :
      ((s.toList.map (fun c => if isAllowedKernelIdChar c then c else '_')).asString).toList
        = s.toList.map (fun c => if isAllowedKernelIdChar c then c else '_') := rfl
  rw [hlist, List.all_map]
  refine List.all_eq_true.mpr (fun c _ => ?_)
  by_cases h : isAllowedKernelIdChar c = true
  · simp [h]
  · simp only [Function.comp_apply, Bool.eq_false_iff.mpr h, Bool.false_eq_true, reduceIte]
    decide

/-- Derived kernel ids always validate. -/
theorem validate_derive_kernel_id (m : PodKernelMetadata) :
    validate_kernel_id_ok (deriveKernelId m) = true := by
  rw [deriveKernelId]
  exact validate_make_kernel_id _

/-- A lookup that misses the first list continues into the second. -/
theorem lookup_append_of_none {β : Type} (k : String) (l₁ l₂ : List (String × β))
    (h : List.lookup k l₁ = none) : List.lookup k (l₁ ++ l₂) = List.lookup k l₂ := by
  induction l₁ with
  | nil => rfl
  | cons a rest ih =>
      obtain ⟨a1, a2⟩ := a
      cases hk : (k == a1) with
      | false =>
          rw [List.cons_append]
          simp only [List.lookup, hk] at h ⊢
          exact ih h
      | true => simp [List.lookup, hk] at h

/-- A lookup miss means no entry carries the key. -/
theorem filter_key_nil_of_lookup_none {β : Type} (k : String) (l : List (String × β))
    (h : List.lookup k l = none) : l.filter (fun kv => kv.1 == k) = [] := by
  induction l with
  | nil => rfl
  | cons a rest ih =>
      obtain ⟨a1, a2⟩ := a
      cases hk : (k == a1) with
      | false =>
          have h' : List.lookup k rest = none := by
            simpa only [List.lookup, hk] using h
          have hne : ¬(k = a1) := by simpa using hk
          have ha : ((a1, a2).1 == k) = false :=
            beq_eq_false_iff_ne.mpr (fun e => hne e.symm)
          simp [List.filter_cons, ha, ih h']
      | true => simp [List.lookup, hk] at h

/-- C2: deterministic install is idempotent.  When the first `cli_install`
with a given configuration writes a fresh spec (validation passes and the
recomputed content-hash id is absent from the store), running it again with
the same configuration finds the spec file at the recomputed id, performs no
store write, reports the existing spec's display name (and language), leaves
exactly one kernelspec directory under that id, and exits successfully. -/
theorem C2_install_idempotent
    (fs_resolve : String → String) (store : KernelStore) (dn : Option String)
    (bld : Bool) (lang img : String) (args : List String)
    (meta : PodKernelMetadata) (kid : String) (spec : JupyterKernelSpec)
    (hmeta : meta = installMeta fs_resolve bld img args)
    (hkid : kid = deriveKernelId meta)
    (hspec : spec = installedSpec kid meta (resolveDisplayName dn bld meta.image_name lang) lang)
    (h₁ : argListHasErrors meta.build_args meta.run_args = false)
    (h₂ : List.lookup kid store = none) :
    cli_install fs_resolve store dn bld lang img args
      = (store ++ [(kid, spec)], InstallOutcome.installed kid spec)
    ∧ cli_install fs_resolve (store ++ [(kid, spec)]) dn bld lang img args
      = (store ++ [(kid, spec)],
         InstallOutcome.existing kid spec.display_name spec.language)
    ∧ countKey (store ++ [(kid, spec)]) kid = 1
    ∧ (cli_install fs_resolve (store ++ [(kid, spec)]) dn bld lang img args).2.isSuccess
        = true := by
  subst hspec
  subst hkid
  subst hmeta
  have hvalid := validate_derive_kernel_id (installMeta fs_resolve bld img args)
  have first :
      cli_install fs_resolve store dn bld lang img args
        = (store ++
            [(deriveKernelId (installMeta fs_resolve bld img args),
              installedSpec (deriveKernelId (installMeta fs_resolve bld img args))
                (installMeta fs_resolve bld img args)
                (resolveDisplayName dn bld (installMeta fs_resolve bld img args).image_name lang)
                lang)],
           InstallOutcome.installed (deriveKernelId (installMeta fs_resolve bld img args))
             (installedSpec (deriveKernelId (installMeta fs_resolve bld img args))
               (installMeta fs_resolve bld img args)
               (resolveDisplayName dn bld (installMeta fs_resolve bld img args).image_name lang)
               lang)) := by
    simp only [cli_install, h₁, hvalid, h₂, Bool.false_eq_true, Bool.not_true, reduceIte]
  have hlook : List.lookup (deriveKernelId (installMeta fs_resolve bld img args))
      (store ++
        [(deriveKernelId (installMeta fs_resolve bld img args),
          installedSpec (deriveKernelId (installMeta fs_resolve bld img args))
            (installMeta fs_resolve bld img args)
            (resolveDisplayName dn bld (installMeta fs_resolve bld img args).image_name lang)
            lang)])
      = some (installedSpec (deriveKernelId (installMeta fs_resolve bld img args))
          (installMeta fs_resolve bld img args)
          (resolveDisplayName dn bld (installMeta fs_resolve bld img args).image_name lang)
          lang) := by
    rw [lookup_append_of_none _ _ _ h₂]
    simp [List.lookup]
  have second :
      cli_install fs_resolve
        (store ++
          [(deriveKernelId (installMeta fs_resolve bld img args),
            installedSpec (deriveKernelId (installMeta fs_resolve bld img args))
              (installMeta fs_resolve bld img args)
              (resolveDisplayName dn bld (installMeta fs_resolve bld img args).image_name lang)
              lang)])
        dn bld lang img args
        = (store ++
            [(deriveKernelId (installMeta fs_resolve bld img args),
              installedSpec (deriveKernelId (installMeta fs_resolve bld img args))
                (installMeta fs_resolve bld img args)
                (resolveDisplayName dn bld (installMeta fs_resolve bld img args).image_name lang)
                lang)],
           InstallOutcome.existing (deriveKernelId (installMeta fs_resolve bld img args))
             (installedSpec (deriveKernelId (installMeta fs_resolve bld img args))
               (installMeta fs_resolve bld img args)
               (resolveDisplayName dn bld (installMeta fs_resolve bld img args).image_name lang)
               lang).display_name
             (installedSpec (deriveKernelId (installMeta fs_resolve bld img args))
               (installMeta fs_resolve bld img args)
               (resolveDisplayName dn bld (installMeta fs_resolve bld img args).image_name lang)
               lang).language) := by
    simp only [cli_install, h₁, hvalid, hlook, Bool.false_eq_true, Bool.not_true, reduceIte]
  have hcount :
      countKey
        (store ++
          [(deriveKernelId (installMeta fs_resolve bld img args),
            installedSpec (deriveKernelId (installMeta fs_resolve bld img args))
              (installMeta fs_resolve bld img args)
              (resolveDisplayName dn bld (installMeta fs_resolve bld img args).image_name lang)
              lang)])
        (deriveKernelId (installMeta fs_resolve bld img args)) = 1 := by
    rw [countKey, List.filter_append, filter_key_nil_of_lookup_none _ _ h₂]
    simp
  refine ⟨first, second, hcount, ?_⟩
  rw [second]
  rfl

/-- C2 witness: both hypotheses discharged at a concrete configuration over
the empty store. -/
theorem C2_install_idempotent_witness :
    cli_install (fun s => s) [] (some "Demo") false "python" "python:3.11" []
      = ([(deriveKernelId (installMeta (fun s => s) false "python:3.11" []),
           installedSpec (deriveKernelId (installMeta (fun s => s) false "python:3.11" []))
             (installMeta (fun s => s) false "python:3.11" [])
             (resolveDisplayName (some "Demo") false
               (installMeta (fun s => s) false "python:3.11" []).image_name "python")
             "python")],
         InstallOutcome.installed (deriveKernelId (installMeta (fun s => s) false "python:3.11" []))
           (installedSpec (deriveKernelId (installMeta (fun s => s) false "python:3.11" []))
             (installMeta (fun s => s) false "python:3.11" [])
             (resolveDisplayName (some "Demo") false
               (installMeta (fun s => s) false "python:3.11" []).image_name "python")
             "python")) := by
  have h := C2_install_idempotent (fun s => s) [] (some "Demo") false "python" "python:3.11" []
    (installMeta (fun s => s) false "python:3.11" [])
    (deriveKernelId (installMeta (fun s => s) false "python:3.11" []))
    (installedSpec (deriveKernelId (installMeta (fun s => s) false "python:3.11" []))
      (installMeta (fun s => s) false "python:3.11" [])
      (resolveDisplayName (some "Demo") false
        (installMeta (fun s => s) false "python:3.11" []).image_name "python")
      "python")
    rfl rfl rfl (by decide) rfl
  simpa using h.1

end Podkernel







